import Mathlib

/-!
Shallow embedding of the MpesuPeachServer core (src/server.js): the Luhn
card checker, the card validation pipeline of the /api/checkout handler,
and the signature-verification path of the /api/webhook handler.
-/

/-- The character class matched by the JavaScript regex \s (whitespace),
used by the `replace` calls in src/server.js. -/
def jsWhitespace (c : Char) : Bool :=
  decide (c.toNat = 32 ∨ (9 ≤ c.toNat ∧ c.toNat ≤ 13) ∨ c.toNat = 160 ∨
    c.toNat = 5760 ∨ (8192 ≤ c.toNat ∧ c.toNat ≤ 8202) ∨ c.toNat = 8232 ∨
    c.toNat = 8233 ∨ c.toNat = 8239 ∨ c.toNat = 8287 ∨ c.toNat = 12288 ∨
    c.toNat = 65279)

/-- `cardNumber.replace(/\s+/g, '')`: remove every whitespace character. -/
def stripWs (s : String) : String := String.mk (s.data.filter (fun c => !jsWhitespace c))

/-- Numeric value of an ASCII digit character. -/
def digitVal (c : Char) : Nat := c.toNat - 48

/-- `parseInt(ch, 10)` on a single character: a value for an ASCII digit,
`none` standing for JavaScript's NaN otherwise. -/
def parseDigit (c : Char) : Option Nat := if c.isDigit then some (digitVal c) else none

/-- The doubling step of the Luhn loop: `digit *= 2; if (digit > 9) digit -= 9`. -/
def dbl9 (d : Nat) : Nat := if 2 * d > 9 then 2 * d - 9 else 2 * d

/-- The loop of `luhnCheck` (src/server.js lines 36-44), walking the stripped
characters from the rightmost one: `sum` is `none` once a NaN has been
absorbed, `dbl` is the `shouldDouble` flag. -/
def luhnAux : List Char → Option Nat → Bool → Option Nat
  | [], sum, _ => sum
  | c :: cs, sum, dbl =>
      luhnAux cs
        (sum.bind (fun a => (parseDigit c).map (fun d => a + (if dbl then dbl9 d else d))))
        (!dbl)

/-- `luhnCheck` from src/server.js lines 31-46: strip whitespace, run the
weighted sum from the right with `shouldDouble` starting false, and test
divisibility by 10 (`NaN % 10 === 0` is false, hence the `none` branch). -/
def luhnCheck (s : String) : Bool :=
  match luhnAux (stripWs s).data.reverse (some 0) false with
  | some n => n % 10 == 0
  | none => false

/-- The spec's weight at 0-based position `i` from the right: positions
2, 4, 6, ... from the right (odd `i`) are doubled, with 9 subtracted above 9. -/
def luhnWeight (i d : Nat) : Nat := if i % 2 = 1 then dbl9 d else d

/-- Indexed weighted sum of a digit list given rightmost-first, starting
at position `i`. -/
def luhnIdx : List Nat → Nat → Nat
  | [], _ => 0
  | d :: ds, i => luhnWeight i d + luhnIdx ds (i + 1)

/-- The spec's weighted digit sum of a digit list in reading order:
enumerate from the rightmost digit and apply the position weights. -/
def luhnSpecSum (ds : List Nat) : Nat :=
  (ds.reverse.enum.map (fun p => luhnWeight p.1 p.2)).sum

/-- The digit values of a string of digit characters, in reading order. -/
def digitsOf (s : String) : List Nat := s.data.map digitVal

/-- The card brand classification of spec section 3. -/
inductive CardBrand where
  | visa
  | mastercard
  | americanExpress
  | discover
  | unknown
  | invalid
deriving DecidableEq

/-- The card validation error taxonomy of spec section 7. -/
inductive CardError where
  | invalidFormat
  | invalidLength (brand : CardBrand) (expected : Nat)
  | checksumFailed
deriving DecidableEq

/-- The number formed by the first `k` digits of a digit list. -/
def leadingNum (ds : List Nat) (k : Nat) : Nat :=
  (ds.take k).foldl (fun a d => 10 * a + d) 0

/-- Modelled from the spec: brand detection is performed by the
`card-validator` npm library (`valid.number(...).card.type`), whose source
is not under src/; the prefix table follows spec section 4.1 step 3. -/
def detectBrand (ds : List Nat) : CardBrand :=
  if leadingNum ds 1 = 4 then .visa
  else if (51 ≤ leadingNum ds 2 ∧ leadingNum ds 2 ≤ 55) ∨
          (2221 ≤ leadingNum ds 4 ∧ leadingNum ds 4 ≤ 2720) then .mastercard
  else if leadingNum ds 2 = 34 ∨ leadingNum ds 2 = 37 then .americanExpress
  else if leadingNum ds 4 = 6011 ∨ leadingNum ds 2 = 65 ∨
          (644 ≤ leadingNum ds 3 ∧ leadingNum ds 3 ≤ 649) then .discover
  else .unknown

/-- The exact length required for a brand, when one is required
(spec section 4.1 step 4; src/server.js lines 88-102). -/
def brandLen (b : CardBrand) : Option Nat :=
  match b with
  | .visa => some 16
  | .mastercard => some 16
  | .discover => some 16
  | .americanExpress => some 15
  | _ => none

/-- Modelled from the spec: the format test applied by
`valid.number(...).isPotentiallyValid` lives in the `card-validator`
library, not under src/; spec section 4.1 step 2 states it as: only
digits, and length between 12 and 19. -/
def formatOk (c : String) : Bool :=
  c.data.all Char.isDigit && decide (12 ≤ c.length) && decide (c.length ≤ 19)

/-- Modelled from the spec: the card validation pipeline of the
/api/checkout handler (src/server.js lines 73-109); the format and brand
tests delegated to the `card-validator` library are replaced by the spec's
steps 2-4, while the checksum step is the source's own `luhnCheck`. -/
def validateCard (s : String) : Except CardError CardBrand :=
  let c := stripWs s
  if formatOk c then
    let b := detectBrand (digitsOf c)
    match brandLen b with
    | some L =>
        if c.length = L then
          (if luhnCheck c then .ok b else .error .checksumFailed)
        else .error (.invalidLength b L)
    | none => if luhnCheck c then .ok b else .error .checksumFailed
  else .error .invalidFormat

/-! SHA-256 and HMAC-SHA256. Modelled from the spec: the webhook handler
calls `crypto.createHmac('sha256', secret).update(body).digest('hex')`
from Node's crypto library, which is not under src/; the functions below
follow FIPS 180-4 and RFC 2104, the algorithms the spec names. Bytes and
32-bit words are `Nat`s reduced modulo 2^32 where overflow matters. -/

/-- Truncation to a 32-bit word. -/
def w32 (n : Nat) : Nat := n % 4294967296

/-- Right rotation of a 32-bit word by `n` places. -/
def rotR32 (n x : Nat) : Nat := w32 ((x >>> n) ||| (x <<< (32 - n)))

/-- FIPS 180-4 big Sigma-0. -/
def sumA0 (x : Nat) : Nat := (rotR32 2 x) ^^^ (rotR32 13 x) ^^^ (rotR32 22 x)

/-- FIPS 180-4 big Sigma-1. -/
def sumE1 (x : Nat) : Nat := (rotR32 6 x) ^^^ (rotR32 11 x) ^^^ (rotR32 25 x)

/-- FIPS 180-4 small sigma-0. -/
def sigLo0 (x : Nat) : Nat := (rotR32 7 x) ^^^ (rotR32 18 x) ^^^ (x >>> 3)

/-- FIPS 180-4 small sigma-1. -/
def sigLo1 (x : Nat) : Nat := (rotR32 17 x) ^^^ (rotR32 19 x) ^^^ (x >>> 10)

/-- FIPS 180-4 Ch, with complement taken inside 32 bits. -/
def chFn (x y z : Nat) : Nat := (x &&& y) ^^^ ((x ^^^ 4294967295) &&& z)

/-- FIPS 180-4 Maj. -/
def majFn (x y z : Nat) : Nat := (x &&& y) ^^^ (x &&& z) ^^^ (y &&& z)

/-- The 64 SHA-256 round constants (decimal). -/
def shaK : List Nat :=
  [1116352408, 1899447441, 3049323471, 3921009573, 961987163, 1508970993,
   2453635748, 2870763221, 3624381080, 310598401, 607225278, 1426881987,
   1925078388, 2162078206, 2614888103, 3248222580, 3835390401, 4022224774,
   264347078, 604807628, 770255983, 1249150122, 1555081692, 1996064986,
   2554220882, 2821834349, 2952996808, 3210313671, 3336571891, 3584528711,
   113926993, 338241895, 666307205, 773529912, 1294757372, 1396182291,
   1695183700, 1986661051, 2177026350, 2456956037, 2730485921, 2820302411,
   3259730800, 3345764771, 3516065817, 3600352804, 4094571909, 275423344,
   430227734, 506948616, 659060556, 883997877, 958139571, 1322822218,
   1537002063, 1747873779, 1955562222, 2024104815, 2227730452, 2361852424,
   2428436474, 2756734187, 3204031479, 3329325298]

/-- The eight 32-bit working variables of SHA-256. -/
structure Hash8 where
  a : Nat
  b : Nat
  c : Nat
  d : Nat
  e : Nat
  f : Nat
  g : Nat
  h : Nat
deriving DecidableEq

/-- The SHA-256 initial hash value (decimal). -/
def shaH0 : Hash8 :=
  ⟨1779033703, 3144134277, 1013904242, 2773480762,
   1359893119, 2600822924, 528734635, 1541459225⟩

/-- Big-endian 32-bit words from a byte list, four bytes per word. -/
def toWords : List Nat → List Nat
  | b0 :: b1 :: b2 :: b3 :: rest => (((b0 * 256 + b1) * 256 + b2) * 256 + b3) :: toWords rest
  | _ => []

/-- One message-schedule extension step; `ws` holds the words produced so
far, most recent first (so W(t-2), W(t-7), W(t-15), W(t-16) sit at
positions 1, 6, 14, 15). -/
def stepW (ws : List Nat) : Nat :=
  w32 (sigLo1 (ws.getD 1 0) + ws.getD 6 0 + sigLo0 (ws.getD 14 0) + ws.getD 15 0)

/-- Extend the message schedule by `k` more words. -/
def extendW : Nat → List Nat → List Nat
  | 0, ws => ws
  | k + 1, ws => extendW k (stepW ws :: ws)

/-- One SHA-256 compression round on the working variables. -/
def compressStep (st : Hash8) (kw : Nat × Nat) : Hash8 :=
  let t1 := w32 (st.h + sumE1 st.e + chFn st.e st.f st.g + kw.1 + kw.2)
  let t2 := w32 (sumA0 st.a + majFn st.a st.b st.c)
  ⟨w32 (t1 + t2), st.a, st.b, st.c, w32 (st.d + t1), st.e, st.f, st.g⟩

/-- Process one 64-byte block: build the 64-word schedule, run the 64
rounds, and add the result back into the chaining value. -/
def sha256Compress (hv : Hash8) (block : List Nat) : Hash8 :=
  let w16 := toWords block
  let w := (extendW 48 w16.reverse).reverse
  let st := (shaK.zip w).foldl compressStep hv
  ⟨w32 (hv.a + st.a), w32 (hv.b + st.b), w32 (hv.c + st.c), w32 (hv.d + st.d),
   w32 (hv.e + st.e), w32 (hv.f + st.f), w32 (hv.g + st.g), w32 (hv.h + st.h)⟩

/-- The `k` big-endian bytes of `n`. -/
def beBytes : Nat → Nat → List Nat
  | 0, _ => []
  | k + 1, n => beBytes k (n / 256) ++ [n % 256]

/-- FIPS 180-4 padding: append 0x80, zero bytes up to 56 mod 64, and the
64-bit big-endian bit length. -/
def padBytes (msg : List Nat) : List Nat :=
  msg ++ [0x80] ++ List.replicate ((119 - msg.length % 64) % 64) 0 ++ beBytes 8 (8 * msg.length)

/-- Split a byte list into 64-byte blocks; the fuel is an upper bound on
the number of iterations, one block consuming at least one byte. -/
def chunksAux : Nat → List Nat → List (List Nat)
  | 0, _ => []
  | _, [] => []
  | fuel + 1, bs => bs.take 64 :: chunksAux fuel (bs.drop 64)

/-- Split a byte list into 64-byte blocks. -/
def chunks64 (bs : List Nat) : List (List Nat) := chunksAux bs.length bs

/-- The 32 bytes of a final hash value, big-endian word by word. -/
def hashBytes (hv : Hash8) : List Nat :=
  beBytes 4 hv.a ++ beBytes 4 hv.b ++ beBytes 4 hv.c ++ beBytes 4 hv.d ++
  beBytes 4 hv.e ++ beBytes 4 hv.f ++ beBytes 4 hv.g ++ beBytes 4 hv.h

/-- SHA-256 of a byte list. -/
def sha256 (msg : List Nat) : List Nat :=
  hashBytes ((chunks64 (padBytes msg)).foldl sha256Compress shaH0)

/-- HMAC-SHA256 (RFC 2104) of a message under a key, both byte lists. -/
def hmacSha256 (key msg : List Nat) : List Nat :=
  let k0 := if 64 < key.length then sha256 key else key
  let kp := k0 ++ List.replicate (64 - k0.length) 0
  sha256 ((kp.map (fun b => b ^^^ 0x5c)) ++ sha256 ((kp.map (fun b => b ^^^ 0x36)) ++ msg))

/-- The lowercase hexadecimal character of a value below 16. -/
def hexDigit (n : Nat) : Char := if n < 10 then Char.ofNat (48 + n) else Char.ofNat (87 + n)

/-- Two lowercase hexadecimal characters per byte. -/
def hexChars : List Nat → List Char
  | [] => []
  | b :: bs => hexDigit (b / 16) :: hexDigit (b % 16) :: hexChars bs

/-- `digest('hex')`: the lowercase hexadecimal rendering of a byte list. -/
def hexLower (bs : List Nat) : String := String.mk (hexChars bs)

/-- The outcomes of the /api/webhook handler: 400 missing header, 401
invalid signature, 400 invalid JSON, or 200 with the parsed event. -/
inductive WebhookResult (α : Type) where
  | missingSignature
  | invalidSignature
  | malformedPayload
  | ok (event : α)
deriving DecidableEq

/-- The /api/webhook handler (src/server.js lines 219-248), parameterised
over the HMAC-hex routine (the `crypto` library call) and the JSON parser
(`JSON.parse` on the decoded body): the absent or empty signature header
(`!signature`) fails first, then the computed signature is compared with
`!==`, and only then is the raw body parsed. -/
def webhookCore {α : Type} (hmacHex : List Nat → List Nat → String)
    (parse : List Nat → Option α) (secret payload : List Nat)
    (sig : Option String) : WebhookResult α :=
  match sig with
  | none => .missingSignature
  | some s =>
      if s = "" then .missingSignature
      else if hmacHex secret payload ≠ s then .invalidSignature
      else
        match parse payload with
        | none => .malformedPayload
        | some ev => .ok ev

/-- The /api/webhook handler with the concrete HMAC-SHA256 hex digest. -/
def webhook {α : Type} (parse : List Nat → Option α) (secret payload : List Nat)
    (sig : Option String) : WebhookResult α :=
  webhookCore (fun k m => hexLower (hmacSha256 k m)) parse secret payload sig

/-! Helper lemmas. -/

theorem luhnAux_none (cs : List Char) : ∀ dbl, luhnAux cs none dbl = none := by
  induction cs with
  | nil => intro dbl; rfl
  | cons c cs ih => intro dbl; simpa [luhnAux] using ih (!dbl)

theorem luhnAux_digits (cs : List Char) :
    ∀ a i, (∀ c ∈ cs, c.isDigit = true) →
      luhnAux cs (some a) (decide (i % 2 = 1)) = some (a + luhnIdx (cs.map digitVal) i) := by
  induction cs with
  | nil => intro a i _; simp [luhnAux, luhnIdx]
  | cons c cs ih =>
    intro a i h
    have hc : c.isDigit = true := h c (by simp)
    have hcs : ∀ x ∈ cs, x.isDigit = true := fun x hx => h x (by simp [hx])
    have hpar : (!decide (i % 2 = 1)) = decide ((i + 1) % 2 = 1) := by
      rcases Nat.mod_two_eq_zero_or_one i with h2 | h2 <;> simp [Nat.add_mod, h2]
    simp only [luhnAux, parseDigit, hc, if_pos, Option.some_bind, Option.map_some, hpar,
      Option.map_some']
    rw [ih _ (i + 1) hcs]
    simp [luhnIdx, luhnWeight, Nat.add_assoc]

theorem enumFrom_luhnIdx (ds : List Nat) :
    ∀ i, ((List.enumFrom i ds).map (fun p => luhnWeight p.1 p.2)).sum = luhnIdx ds i := by
  induction ds with
  | nil => intro i; simp [luhnIdx]
  | cons d ds ih => intro i; simp [List.enumFrom, luhnIdx, ih]

theorem luhnAux_nondigit (cs : List Char) :
    ∀ a dbl, (∃ c ∈ cs, ¬ c.isDigit = true) → luhnAux cs (some a) dbl = none := by
  induction cs with
  | nil => intro a dbl h; simp at h
  | cons c cs ih =>
    intro a dbl h
    by_cases hc : c.isDigit = true
    · obtain ⟨x, hx, hxd⟩ := h
      rcases List.mem_cons.mp hx with rfl | hx2
      · exact absurd hc hxd
      · simp only [luhnAux, parseDigit, hc, if_pos, Option.some_bind, Option.map_some]
        exact ih _ _ ⟨x, hx2, hxd⟩
    · have hp : parseDigit c = none := by simp [parseDigit, hc]
      simp only [luhnAux, hp, Option.map_none, Option.some_bind]
      exact luhnAux_none cs _

/-- Full characterisation of the source's `luhnCheck`: true exactly when
the stripped string is all digits and the spec's weighted sum is 0 mod 10. -/
theorem luhnCheck_iff (s : String) :
    luhnCheck s = true ↔
      ((∀ c ∈ (stripWs s).data, c.isDigit = true) ∧
       luhnSpecSum (digitsOf (stripWs s)) % 10 = 0) := by
  by_cases hd : ∀ c ∈ (stripWs s).data, c.isDigit = true
  · have hrev : ∀ c ∈ (stripWs s).data.reverse, c.isDigit = true := by
      intro c hc; exact hd c (List.mem_reverse.mp hc)
    have haux := luhnAux_digits ((stripWs s).data.reverse) 0 0 hrev
    have hsum : luhnSpecSum (digitsOf (stripWs s)) =
        luhnIdx ((stripWs s).data.reverse.map digitVal) 0 := by
      unfold luhnSpecSum digitsOf
      rw [show ((stripWs s).data.map digitVal).reverse = (stripWs s).data.reverse.map digitVal
            from (List.map_reverse digitVal (stripWs s).data).symm]
      exact enumFrom_luhnIdx _ 0
    unfold luhnCheck
    rw [show (false : Bool) = decide (0 % 2 = 1) from rfl, haux]
    simp only [Nat.zero_add, beq_iff_eq]
    constructor
    · intro h10
      refine ⟨hd, ?_⟩
      rw [hsum]
      exact h10
    · rintro ⟨-, h10⟩
      rw [hsum] at h10
      exact h10
  · have hne : ∃ c ∈ (stripWs s).data.reverse, ¬ c.isDigit = true := by
      push_neg at hd
      obtain ⟨c, hc, hcd⟩ := hd
      exact ⟨c, List.mem_reverse.mpr hc, hcd⟩
    unfold luhnCheck
    rw [luhnAux_nondigit _ 0 false hne]
    simp [hd]

theorem filter_idem {p : Char → Bool} : ∀ l : List Char,
    (l.filter p).filter p = l.filter p := by
  intro l
  induction l with
  | nil => rfl
  | cons c cs ih => by_cases h : p c <;> simp [List.filter_cons, h, ih]

theorem stripWs_idem (s : String) : stripWs (stripWs s) = stripWs s :=
  congrArg String.mk (filter_idem s.data)

theorem beBytes_length (k : Nat) : ∀ n, (beBytes k n).length = k := by
  induction k with
  | zero => intro n; rfl
  | succ k ih => intro n; simp [beBytes, ih]

theorem sha256_length (msg : List Nat) : (sha256 msg).length = 32 := by
  simp [sha256, hashBytes, beBytes_length]

theorem hmacSha256_length (key msg : List Nat) : (hmacSha256 key msg).length = 32 := by
  unfold hmacSha256
  exact sha256_length _

theorem hexChars_length (bs : List Nat) : (hexChars bs).length = 2 * bs.length := by
  induction bs with
  | nil => rfl
  | cons b bs ih => simp [hexChars, ih]; omega

theorem hmacHex_ne_empty (secret payload : List Nat) :
    hexLower (hmacSha256 secret payload) ≠ "" := by
  intro hEq
  have h1 : (hexLower (hmacSha256 secret payload)).length = 0 := by rw [hEq]; rfl
  have h2 : (hexLower (hmacSha256 secret payload)).length = 64 := by
    show (hexChars (hmacSha256 secret payload)).length = 64
    rw [hexChars_length, hmacSha256_length]
  omega

theorem webhookCore_none {α : Type} (hmacHex : List Nat → List Nat → String)
    (parse : List Nat → Option α) (secret payload : List Nat) :
    webhookCore hmacHex parse secret payload none = WebhookResult.missingSignature := rfl

theorem webhookCore_some {α : Type} (hmacHex : List Nat → List Nat → String)
    (parse : List Nat → Option α) (secret payload : List Nat) (s : String) :
    webhookCore hmacHex parse secret payload (some s) =
      (if s = "" then WebhookResult.missingSignature
       else if hmacHex secret payload ≠ s then WebhookResult.invalidSignature
       else
         match parse payload with
         | none => WebhookResult.malformedPayload
         | some ev => WebhookResult.ok ev) := rfl

theorem webhook_some {α : Type} (parse : List Nat → Option α)
    (secret payload : List Nat) (s : String) :
    webhook parse secret payload (some s) =
      (if s = "" then WebhookResult.missingSignature
       else if hexLower (hmacSha256 secret payload) ≠ s then WebhookResult.invalidSignature
       else
         match parse payload with
         | none => WebhookResult.malformedPayload
         | some ev => WebhookResult.ok ev) := rfl

theorem formatOk_iff (c : String) :
    formatOk c = true ↔
      ((∀ ch ∈ c.data, ch.isDigit = true) ∧ 12 ≤ c.length ∧ c.length ≤ 19) := by
  simp [formatOk, List.all_eq_true, Bool.and_eq_true, decide_eq_true_eq, and_assoc]

theorem validateCard_invalidFormat_iff (s : String) :
    validateCard s = Except.error CardError.invalidFormat ↔
      formatOk (stripWs s) = false := by
  by_cases hf : formatOk (stripWs s) = true
  · simp only [validateCard, hf, if_true]
    constructor
    · intro h
      exfalso
      split at h
      · split at h
        · split at h <;> simp_all
        · simp_all
      · split at h <;> simp_all
    · intro h
      simp at h
  · have hf2 : formatOk (stripWs s) = false := by
      cases hb : formatOk (stripWs s)
      · rfl
      · exact absurd hb hf
    simp only [validateCard, hf2]
    simp

/-! Claim theorems. -/

/-- C1 counterexample: on the input "91a" the whitespace-stripped string
keeps the non-digit character, so `luhnCheck` returns false (`parseInt`
yields NaN), even though the weighted sum of the digits present (9 doubled
to 18, minus 9, plus 1) is 10, divisible by 10 — so "luhnCheck returns
true iff the weighted digit sum is divisible by 10" fails on this string. -/
theorem luhn_claim_cex :
    luhnCheck "91a" = false ∧
    luhnSpecSum (((stripWs "91a").data.filter Char.isDigit).map digitVal) % 10 = 0 := by
  constructor
  · decide
  · decide

/-- C1 (amended): for every string input, `luhnCheck` returns true iff,
after stripping whitespace, the string consists solely of digits and the
weighted digit sum — doubling every second digit from the rightmost digit
leftward, subtracting 9 from any doubled digit exceeding 9, and summing
all digits — is divisible by 10. -/
theorem luhn_characterization (s : String) :
    luhnCheck s = true ↔
      ((∀ c ∈ (stripWs s).data, c.isDigit = true) ∧
       luhnSpecSum (digitsOf (stripWs s)) % 10 = 0) :=
  luhnCheck_iff s

/-- C10 counterexample: the input "a" contains no digit character, yet
`luhnCheck "a"` returns false, because the stripped string is "a", not
empty, and `parseInt('a')` is NaN, so `NaN % 10 === 0` is false. -/
theorem luhn_nodigits_cex :
    luhnCheck "a" = false ∧ (∀ c ∈ "a".data, ¬ c.isDigit = true) := by
  constructor
  · decide
  · decide

/-- C10 (amended): for every input string made only of whitespace
characters — the empty string included — `luhnCheck` returns true, the
stripped string being empty and the sum 0 divisible by 10. -/
theorem luhn_whitespace_true (s : String) (h : ∀ c ∈ s.data, jsWhitespace c = true) :
    luhnCheck s = true := by
  have hstrip : (stripWs s).data = [] := by
    show s.data.filter (fun c => !jsWhitespace c) = []
    exact List.filter_eq_nil_iff.mpr (fun c hc => by simp [h c hc])
  unfold luhnCheck
  rw [hstrip]
  rfl

/-- C10 witness: the one-space string is all whitespace and `luhnCheck`
accepts it. -/
theorem luhn_whitespace_true_witness :
    (∀ c ∈ " ".data, jsWhitespace c = true) ∧ luhnCheck " " = true :=
  ⟨by decide, luhn_whitespace_true " " (by decide)⟩

/-- C6: `validateCard` fails with InvalidFormat exactly when the stripped
string contains a non-digit character or has length outside 12..19; in
particular `validateCard "123"` fails with InvalidFormat. -/
theorem validateCard_format :
    (∀ s, validateCard s = Except.error CardError.invalidFormat ↔
      ((∃ c ∈ (stripWs s).data, ¬ c.isDigit = true) ∨
       (stripWs s).length < 12 ∨ 19 < (stripWs s).length)) ∧
    validateCard "123" = Except.error CardError.invalidFormat := by
  constructor
  · intro s
    rw [validateCard_invalidFormat_iff]
    have hneg : (formatOk (stripWs s) = false) ↔ ¬(formatOk (stripWs s) = true) := by
      cases formatOk (stripWs s) <;> simp
    rw [hneg, formatOk_iff]
    constructor
    · intro h
      by_cases hA : ∀ ch ∈ (stripWs s).data, ch.isDigit = true
      · have : ¬(12 ≤ (stripWs s).length ∧ (stripWs s).length ≤ 19) := by
          intro hBC
          exact h ⟨hA, hBC.1, hBC.2⟩
        right
        omega
      · left
        push_neg at hA
        exact hA
    · rintro (⟨c, hc, hcd⟩ | h | h) ⟨hA, hB, hC⟩
      · exact hcd (hA c hc)
      · omega
      · omega
  · rfl

/-- C7: past the format check, visa, mastercard and discover cards of
length other than 16 and american-express cards of length other than 15
fail with InvalidLength naming the brand and the expected length, while
other brands are never length-constrained; in particular the 14-digit
amex-prefix input fails with InvalidLength. -/
theorem validateCard_length_rules :
    (∀ s, formatOk (stripWs s) = true →
      (((detectBrand (digitsOf (stripWs s)) = CardBrand.visa ∨
         detectBrand (digitsOf (stripWs s)) = CardBrand.mastercard ∨
         detectBrand (digitsOf (stripWs s)) = CardBrand.discover) ∧
        (stripWs s).length ≠ 16 →
          validateCard s =
            Except.error (CardError.invalidLength (detectBrand (digitsOf (stripWs s))) 16)) ∧
       (detectBrand (digitsOf (stripWs s)) = CardBrand.americanExpress ∧
        (stripWs s).length ≠ 15 →
          validateCard s =
            Except.error (CardError.invalidLength (detectBrand (digitsOf (stripWs s))) 15)) ∧
       (detectBrand (digitsOf (stripWs s)) ≠ CardBrand.visa ∧
        detectBrand (digitsOf (stripWs s)) ≠ CardBrand.mastercard ∧
        detectBrand (digitsOf (stripWs s)) ≠ CardBrand.discover ∧
        detectBrand (digitsOf (stripWs s)) ≠ CardBrand.americanExpress →
          ∀ b L, validateCard s ≠ Except.error (CardError.invalidLength b L)))) ∧
    validateCard "34343434343434" =
      Except.error (CardError.invalidLength CardBrand.americanExpress 15) := by
  constructor
  · intro s hf
    refine ⟨?_, ?_, ?_⟩
    · rintro ⟨hb, hlen⟩
      simp only [validateCard, hf, if_true]
      rcases hb with hb | hb | hb <;> rw [hb] <;> simp [brandLen, hlen]
    · rintro ⟨hb, hlen⟩
      simp only [validateCard, hf, if_true]
      rw [hb]
      simp [brandLen, hlen]
    · rintro ⟨h1, h2, h3, h4⟩ b L
      simp only [validateCard, hf, if_true]
      cases hb : detectBrand (digitsOf (stripWs s)) with
      | visa => exact absurd hb h1
      | mastercard => exact absurd hb h2
      | discover => exact absurd hb h3
      | americanExpress => exact absurd hb h4
      | unknown => simp [brandLen]; split <;> simp
      | invalid => simp [brandLen]; split <;> simp
  · rfl

/-- C7 witness: a 13-digit visa-prefix string passes the format check and
fails with InvalidLength for visa, length 16. -/
theorem validateCard_length_rules_witness :
    formatOk (stripWs "4242424242424") = true ∧
    validateCard "4242424242424" =
      Except.error (CardError.invalidLength (detectBrand (digitsOf (stripWs "4242424242424"))) 16) :=
  ⟨by decide,
   (validateCard_length_rules.1 "4242424242424" (by decide)).1 ⟨Or.inl (by decide), by decide⟩⟩

/-- C8: past the format and length-by-brand checks, a card whose spec
weighted digit sum is not divisible by 10 fails with ChecksumFailed; in
particular `validateCard "4242424242424241"` fails with ChecksumFailed. -/
theorem validateCard_checksum :
    (∀ s, formatOk (stripWs s) = true →
      (brandLen (detectBrand (digitsOf (stripWs s))) = none ∨
       brandLen (detectBrand (digitsOf (stripWs s))) = some (stripWs s).length) →
      luhnSpecSum (digitsOf (stripWs s)) % 10 ≠ 0 →
      validateCard s = Except.error CardError.checksumFailed) ∧
    validateCard "4242424242424241" = Except.error CardError.checksumFailed := by
  constructor
  · intro s hf hlen hsum
    have hluhn : luhnCheck (stripWs s) = false := by
      cases hcl : luhnCheck (stripWs s)
      · rfl
      · exfalso
        have h2 := (luhnCheck_iff (stripWs s)).mp hcl
        rw [stripWs_idem] at h2
        exact hsum h2.2
    simp only [validateCard, hf, if_true]
    rcases hlen with hl | hl
    · rw [hl]
      simp [hluhn]
    · rw [hl]
      simp [hluhn]
  · rfl

/-- C8 witness: the mutated visa number passes format and length checks,
its weighted sum is not 0 mod 10, and validateCard reports ChecksumFailed. -/
theorem validateCard_checksum_witness :
    formatOk (stripWs "4242424242424241") = true ∧
    brandLen (detectBrand (digitsOf (stripWs "4242424242424241"))) =
      some (stripWs "4242424242424241").length ∧
    luhnSpecSum (digitsOf (stripWs "4242424242424241")) % 10 ≠ 0 ∧
    validateCard "4242424242424241" = Except.error CardError.checksumFailed :=
  ⟨by decide, by decide, by decide,
   validateCard_checksum.1 "4242424242424241" (by decide) (Or.inr (by decide)) (by decide)⟩

/-- C2: with a present (non-empty) signature header, the webhook gets past
the signature gate — parsing the payload, successfully or not — iff the
received signature equals the lowercase hexadecimal rendering of the
HMAC-SHA256 of the raw payload bytes under the secret; any mismatch fails
with InvalidSignature. -/
theorem webhook_signature_iff :
    ∀ (α : Type) (parse : List Nat → Option α) (secret payload : List Nat) (sig : String),
      sig ≠ "" →
      ((((∃ ev, webhook parse secret payload (some sig) = WebhookResult.ok ev) ∨
         webhook parse secret payload (some sig) = WebhookResult.malformedPayload) ↔
        sig = hexLower (hmacSha256 secret payload)) ∧
       (sig ≠ hexLower (hmacSha256 secret payload) →
        webhook parse secret payload (some sig) = WebhookResult.invalidSignature)) := by
  intro α parse secret payload sig hne
  by_cases hs : sig = hexLower (hmacSha256 secret payload)
  · have hw : webhook parse secret payload (some sig) =
        (match parse payload with
         | none => WebhookResult.malformedPayload
         | some ev => WebhookResult.ok ev) := by
      rw [webhook_some, if_neg hne, if_neg (not_not_intro hs.symm)]
    refine ⟨⟨fun _ => hs, fun _ => ?_⟩, fun hc => absurd hs hc⟩
    cases hp : parse payload with
    | none =>
        right
        rw [hw, hp]
    | some ev =>
        left
        exact ⟨ev, by rw [hw, hp]⟩
  · have hw : webhook parse secret payload (some sig) = WebhookResult.invalidSignature := by
      rw [webhook_some, if_neg hne, if_pos (fun heq => hs heq.symm)]
    refine ⟨⟨?_, fun h => absurd h hs⟩, fun _ => hw⟩
    rintro (⟨ev, hev⟩ | hmal)
    · rw [hw] at hev
      exact absurd hev (by simp)
    · rw [hw] at hmal
      exact absurd hmal (by simp)

/-- C2 witness: instantiated at a concrete parser, secret, payload and the
non-empty signature "x". -/
theorem webhook_signature_iff_witness :
    ("x" : String) ≠ "" ∧
    ((((∃ ev, webhook (fun _ => (none : Option Unit)) [] [] (some "x") = WebhookResult.ok ev) ∨
       webhook (fun _ => (none : Option Unit)) [] [] (some "x") = WebhookResult.malformedPayload) ↔
      "x" = hexLower (hmacSha256 [] [])) ∧
     ("x" ≠ hexLower (hmacSha256 [] []) →
      webhook (fun _ => (none : Option Unit)) [] [] (some "x") = WebhookResult.invalidSignature)) :=
  ⟨by decide, webhook_signature_iff Unit (fun _ => none) [] [] "x" (by decide)⟩

/-- C4: when signature verification does not succeed — header absent,
empty, or mismatching — the handler's outcome is the same whatever the
parser does, so the payload contents are never processed; after a
successful verification a parse failure yields MalformedPayload, which is
distinct from InvalidSignature. -/
theorem webhook_parse_gating :
    (∀ (α : Type) (p1 p2 : List Nat → Option α) (secret payload : List Nat)
        (sig : Option String),
      (sig = none ∨ ∃ s, sig = some s ∧ (s = "" ∨ s ≠ hexLower (hmacSha256 secret payload))) →
      webhook p1 secret payload sig = webhook p2 secret payload sig) ∧
    (∀ (α : Type) (parse : List Nat → Option α) (secret payload : List Nat) (s : String),
      s ≠ "" → s = hexLower (hmacSha256 secret payload) → parse payload = none →
      webhook parse secret payload (some s) = WebhookResult.malformedPayload ∧
      (WebhookResult.malformedPayload : WebhookResult α) ≠ WebhookResult.invalidSignature) := by
  constructor
  · rintro α p1 p2 secret payload sig (rfl | ⟨s, rfl, hs⟩)
    · rfl
    · by_cases hse : s = ""
      · subst hse
        rw [webhook_some, webhook_some, if_pos rfl, if_pos rfl]
      · rcases hs with rfl | hs
        · exact absurd rfl hse
        · rw [webhook_some, webhook_some, if_neg hse, if_neg hse,
            if_pos (fun heq => hs heq.symm), if_pos (fun heq => hs heq.symm)]
  · intro α parse secret payload s hne hs hp
    constructor
    · rw [webhook_some, if_neg hne, if_neg (not_not_intro hs.symm), hp]
    · simp

/-- C4 witness: part one at an absent header with two different parsers,
part two at the matching signature with a failing parser. -/
theorem webhook_parse_gating_witness :
    (webhook (fun _ => (none : Option Unit)) [] [] none =
      webhook (fun _ => some ()) [] [] none) ∧
    hexLower (hmacSha256 [] []) ≠ "" ∧
    webhook (fun _ => (none : Option Unit)) [] [] (some (hexLower (hmacSha256 [] []))) =
      WebhookResult.malformedPayload :=
  ⟨webhook_parse_gating.1 Unit (fun _ => none) (fun _ => some ()) [] [] none (Or.inl rfl),
   hmacHex_ne_empty [] [],
   (webhook_parse_gating.2 Unit (fun _ => none) [] [] (hexLower (hmacSha256 [] []))
     (hmacHex_ne_empty [] []) rfl rfl).1⟩

/-- C5: an absent or empty signature header fails with MissingSignature,
and the outcome does not depend on the HMAC routine at all — no HMAC is
computed before that failure. -/
theorem webhook_missing_sig :
    ∀ (α : Type) (hmac1 hmac2 : List Nat → List Nat → String)
      (parse : List Nat → Option α) (secret payload : List Nat) (sig : Option String),
      (sig = none ∨ sig = some "") →
      (webhookCore hmac1 parse secret payload sig = WebhookResult.missingSignature ∧
       webhookCore hmac1 parse secret payload sig = webhookCore hmac2 parse secret payload sig ∧
       webhook parse secret payload sig = WebhookResult.missingSignature) := by
  rintro α hmac1 hmac2 parse secret payload sig (rfl | rfl)
  · exact ⟨rfl, rfl, rfl⟩
  · refine ⟨?_, ?_, ?_⟩
    · rw [webhookCore_some, if_pos rfl]
    · rw [webhookCore_some, webhookCore_some, if_pos rfl, if_pos rfl]
    · rw [webhook_some, if_pos rfl]

/-- C5 witness: the empty signature header at a concrete HMAC routine,
parser, secret and payload. -/
theorem webhook_missing_sig_witness :
    webhookCore (fun k m => hexLower (hmacSha256 k m)) (fun _ => (some () : Option Unit))
      [] [] (some "") = WebhookResult.missingSignature ∧
    webhook (fun _ => (some () : Option Unit)) [] [] (some "") =
      WebhookResult.missingSignature :=
  ⟨(webhook_missing_sig Unit (fun k m => hexLower (hmacSha256 k m)) (fun _ _ => "x")
      (fun _ => some ()) [] [] (some "") (Or.inr rfl)).1,
   (webhook_missing_sig Unit (fun k m => hexLower (hmacSha256 k m)) (fun _ _ => "x")
      (fun _ => some ()) [] [] (some "") (Or.inr rfl)).2.2⟩

/-- C9: both core routines are total functions into typed results: every
validateCard outcome is a success or one of the three named card errors,
every webhook outcome is a success or one of the three named signature
errors, and luhnCheck always returns a boolean. -/
theorem core_total :
    (∀ s, (∃ b, validateCard s = Except.ok b) ∨
      validateCard s = Except.error CardError.invalidFormat ∨
      (∃ b L, validateCard s = Except.error (CardError.invalidLength b L)) ∨
      validateCard s = Except.error CardError.checksumFailed) ∧
    (∀ (α : Type) (parse : List Nat → Option α) (secret payload : List Nat)
        (sig : Option String),
      (∃ ev, webhook parse secret payload sig = WebhookResult.ok ev) ∨
      webhook parse secret payload sig = WebhookResult.missingSignature ∨
      webhook parse secret payload sig = WebhookResult.invalidSignature ∨
      webhook parse secret payload sig = WebhookResult.malformedPayload) ∧
    (∀ s, luhnCheck s = true ∨ luhnCheck s = false) := by
  refine ⟨?_, ?_, ?_⟩
  · intro s
    cases hv : validateCard s with
    | ok b => exact Or.inl ⟨b, rfl⟩
    | error e =>
        cases e with
        | invalidFormat => exact Or.inr (Or.inl rfl)
        | invalidLength b L => exact Or.inr (Or.inr (Or.inl ⟨b, L, rfl⟩))
        | checksumFailed => exact Or.inr (Or.inr (Or.inr rfl))
  · intro α parse secret payload sig
    cases hw : webhook parse secret payload sig with
    | missingSignature => exact Or.inr (Or.inl rfl)
    | invalidSignature => exact Or.inr (Or.inr (Or.inl rfl))
    | malformedPayload => exact Or.inr (Or.inr (Or.inr rfl))
    | ok ev => exact Or.inl ⟨ev, rfl⟩
  · intro s
    cases hl : luhnCheck s
    · exact Or.inr rfl
    · exact Or.inl rfl
